import Mathlib

set_option linter.unusedVariables false

/-!
Shallow embedding of the queue persistence and mutation engine
(`QueueSaver`, `Queue`) of this repository, together with the
`StoredQueue` data model and the change-watcher notification protocol.

JavaScript semantics relevant to the embedded code are made explicit:
truthiness of numbers and strings, `NaN`, `Array.prototype.flat`,
`Array.prototype.splice` index clamping, and `try { } catch { }` around
watcher callbacks (modelled with `Except`).
-/

namespace LavalinkQueue

/-- A JavaScript number as it occurs in track durations: a finite integer
amount of milliseconds, or `NaN`. -/
inductive JsNum where
  | num (n : Int)
  | nan
deriving DecidableEq

/-- The optional metadata fields of a track's `info` object that the queue
code reads (`Queue.remove` match chain and `Queue.isValid`). -/
structure TrackInfo where
  identifier : Option String := none
  uri : Option String := none
  title : Option String := none
  isrc : Option String := none
  artworkUrl : Option String := none
  duration : Option JsNum := none
deriving DecidableEq

/-- Discriminant of the `Track` / `UnresolvedTrack` tagged union. -/
inductive TrackKind where
  | resolved
  | unresolved
deriving DecidableEq

/-- A track-like value: `encoded` handle and `info` are both optional. -/
structure QTrack where
  kind : TrackKind
  encoded : Option String := none
  info : Option TrackInfo := none
deriving DecidableEq

/-- The serializable queue state (`StoredQueue` in `Types/Queue`). -/
structure StoredQueue where
  current : Option QTrack := none
  previous : List QTrack := []
  tracks : List QTrack := []
deriving DecidableEq

/-- JS truthiness of an optional number: `undefined`, `NaN` and `0` are
falsy. -/
def jsTruthyNum : Option JsNum → Bool
  | none => false
  | some JsNum.nan => false
  | some (JsNum.num n) => !(n == 0)

/-- JS `isNaN` applied to an optional number (`isNaN(undefined)` is true). -/
def jsIsNaN : Option JsNum → Bool
  | none => true
  | some JsNum.nan => true
  | some (JsNum.num _) => false

/-- JS `<` between an optional number and an integer literal: comparisons
with `undefined` or `NaN` are false. -/
def jsLtNum : Option JsNum → Int → Bool
  | none, _ => false
  | some JsNum.nan, _ => false
  | some (JsNum.num m), n => decide (m < n)

/-- JS truthiness of an optional string: `undefined` and `""` are falsy. -/
def jsTruthyStr : Option String → Bool
  | none => false
  | some s => !(s == "")

/-- Modelled from the spec: `ManagerUtils.isTrack` lives in `./Utils`, which
is not among the provided sources; the spec says `Track` and
`UnresolvedTrack` are a tagged union distinguished by capability
predicates. -/
def isTrack (t : QTrack) : Bool := t.kind == TrackKind.resolved

/-- Modelled from the spec: `ManagerUtils.isUnresolvedTrack`, the counterpart
capability predicate of the tagged union. -/
def isUnresolvedTrack (t : QTrack) : Bool := t.kind == TrackKind.unresolved

/-- `track.info?.duration` -/
def trackDuration (t : QTrack) : Option JsNum := t.info.bind TrackInfo.duration

/-- `Queue.isValid` (source lines 178-189): resolved tracks with a falsy,
`NaN` or `< 10000` ms duration are invalid; unresolved tracks are always
valid. -/
def isValid (t : QTrack) : Bool :=
  if isTrack t then
    let duration := trackDuration t
    if !jsTruthyNum duration || jsIsNaN duration || jsLtNum duration 10000 then false
    else true
  else true

/-- An argument to `Queue.add` / `Queue.splice`: a single track-like value or
a (possibly nested) array of them. -/
inductive AddItem where
  | single (t : QTrack)
  | arr (xs : List AddItem)

/-- `Array.prototype.flat(d)`: arrays among the elements are flattened
recursively with depth `d - 1`; non-array elements are kept. -/
def jsFlat : Nat → List AddItem → List AddItem
  | 0, l => l
  | d + 1, l =>
    l.foldr (fun x acc =>
      (match x with
       | AddItem.arr ys => jsFlat d ys
       | AddItem.single t => [AddItem.single t]) ++ acc) []

/-- The capability filter in `add`:
`managerUtils.isTrack(v) || managerUtils.isUnresolvedTrack(v)`; array values
satisfy neither predicate. -/
def itemIsTrackLike : AddItem → Bool
  | AddItem.single t => isTrack t || isUnresolvedTrack t
  | AddItem.arr _ => false

def extractTrack : AddItem → Option QTrack
  | AddItem.single t => some t
  | AddItem.arr _ => none

/-- The `validTracks` computation shared by `add` and `splice`
(source lines 445-448):
`(Array.isArray(x) ? x : [x]).flat(2).filter(isTrack || isUnresolvedTrack).filter(isValid)`. -/
def addValidTracks (input : AddItem) : List QTrack :=
  (((jsFlat 2 (match input with
      | AddItem.arr xs => xs
      | AddItem.single t => [AddItem.single t])).filter
        itemIsTrackLike).filterMap extractTrack).filter isValid

/-- Registered watcher callbacks: `none` means no handler of that name is a
function; `some b` means a handler is registered and `b` tells whether
invoking it throws. -/
structure WatcherCfg where
  shuffled : Option Bool := none
  tracksAdd : Option Bool := none
  tracksRemoved : Option Bool := none
deriving DecidableEq

def noWatcher : WatcherCfg := {}

/-- Invoking a possibly-registered watcher callback. -/
def watcherCall : Option Bool → Except Unit Unit
  | none => Except.ok ()
  | some throws => if throws then Except.error () else Except.ok ()

/-- `try { e } catch { }`: a raised exception is caught and discarded, and
control continues normally. Call sites bind through the result with the same
`match` shape as the unguarded call in `shuffle`, so the only difference
between the guarded and unguarded watcher invocations is this combinator. -/
def tryCatchW : Except Unit Unit → Except Unit Unit
  | Except.error _ => Except.ok ()
  | Except.ok _ => Except.ok ()

/-- A watcher invocation as observed by the callback: its name and the
`oldStoredQueue` / `newStoredQueue` snapshot arguments. -/
structure WatchEvent where
  name : String
  oldQ : StoredQueue
  newQ : StoredQueue
deriving DecidableEq

/-- Outcome of one mutation: returned value, the document passed to
`QueueSaver.set` (`none` when the operation did not save), and the watcher
invocations it performed. -/
structure MutOut (α : Type) where
  result : α
  savedQueue : Option StoredQueue := none
  events : List WatchEvent := []
deriving DecidableEq

/-- Construction options (`ManagerQueueOptions`). -/
structure ManagerQueueOptions where
  maxPreviousTracks : Option Nat := none
  queueChangesWatcher : Option WatcherCfg := none

/-- The resolved options of a `QueueSaver`. -/
structure QueueSaverOptions where
  maxPreviousTracks : Nat
deriving DecidableEq

/-- `QueueSaver` constructor (source lines 49-54):
`maxPreviousTracks: options?.maxPreviousTracks || 25` - note `||`, under
which a configured `0` is falsy and falls back to the default `25`. -/
def QueueSaver.makeOptions (options : Option ManagerQueueOptions) : QueueSaverOptions :=
  { maxPreviousTracks :=
      match options.bind ManagerQueueOptions.maxPreviousTracks with
      | none => 25
      | some n => if n == 0 then 25 else n }

/-- `Queue._save` (source lines 221-226): before writing, `previous` is
truncated in place with
`previous.splice(maxPreviousTracks, previous.length)` when it is longer
than the cap. -/
def saveTrunc (maxPrev : Nat) (s : StoredQueue) : StoredQueue :=
  if s.previous.length > maxPrev then { s with previous := s.previous.take maxPrev }
  else s

/-- `Queue._snapshot` (source lines 229-235): `current` is shallow-cloned
with an object spread, `previous` and `tracks` are copied with array
spreads. On values this rebuilds an equal `StoredQueue`. -/
def snapshot (s : StoredQueue) : StoredQueue :=
  { current := match s.current with
      | some t => some t
      | none => none,
    previous := s.previous,
    tracks := s.tracks }

/-- `[l[i], l[j]] = [l[j], l[i]]` on a JS array (both indices in range in
every use below; otherwise the list is returned unchanged). -/
def listSwap {α : Type} (l : List α) (i j : Nat) : List α :=
  match l[i]?, l[j]? with
  | some a, some b => (l.set i b).set j a
  | _, _ => l

/-- The Fisher-Yates loop of `shuffle` (source lines 424-427): `i` runs from
`length - 1` down to `1`, consuming one random index `j` per step. -/
def fyLoop : List QTrack → Nat → List Nat → List QTrack
  | l, 0, _ => l
  | l, _ + 1, [] => l
  | l, i + 1, j :: js => fyLoop (listSwap l (i + 1) j) i js

/-- `Queue.shuffle` (source lines 414-435). The `shuffled` watcher call is
not wrapped in `try`/`catch`, so a throwing handler propagates and the save
is never reached. -/
def Queue.shuffle (cfg : WatcherCfg) (maxPrev : Nat) (stored : StoredQueue)
    (js : List Nat) : Except Unit (MutOut Nat) :=
  let oldStored := if cfg.shuffled.isSome then some (snapshot stored) else none
  if stored.tracks.length ≤ 1 then Except.ok { result := stored.tracks.length }
  else
    let tracks2 :=
      if stored.tracks.length == 2 then listSwap stored.tracks 0 1
      else fyLoop stored.tracks (stored.tracks.length - 1) js
    let stored2 := { stored with tracks := tracks2 }
    let events := if cfg.shuffled.isSome
      then [{ name := "shuffled", oldQ := oldStored.getD stored,
              newQ := snapshot stored2 : WatchEvent }]
      else []
    match watcherCall cfg.shuffled with
    | Except.error e => Except.error e
    | Except.ok _ =>
      Except.ok { result := stored2.tracks.length,
                  savedQueue := some (saveTrunc maxPrev stored2),
                  events := events }

/-- Clamped start index of `Array.prototype.splice`. -/
def jsSpliceStart (len : Nat) (start : Int) : Nat :=
  if start < 0 then (start + len).toNat else min start.toNat len

/-- `l.splice(start, deleteCount, ...items)`: returns the removed elements
and the array contents after the call. -/
def jsSplice {α : Type} (l : List α) (start deleteCount : Int) (items : List α) :
    List α × List α :=
  let s := jsSpliceStart l.length start
  let dc := min (max deleteCount 0).toNat (l.length - s)
  ((l.drop s).take dc, l.take s ++ items ++ l.drop (s + dc))

/-- The append branch of `Queue.add` (source lines 463-472): push the valid
tracks, notify `tracksAdd` inside `try`/`catch`, save. -/
def Queue.addAppend (cfg : WatcherCfg) (maxPrev : Nat) (stored : StoredQueue)
    (validTracks : List QTrack) : Except Unit (MutOut Nat) :=
  let oldStored := if cfg.tracksAdd.isSome then some (snapshot stored) else none
  let stored2 := { stored with tracks := stored.tracks ++ validTracks }
  let events := if cfg.tracksAdd.isSome
    then [{ name := "tracksAdd", oldQ := oldStored.getD stored,
            newQ := snapshot stored2 : WatchEvent }]
    else []
  match tryCatchW (watcherCall cfg.tracksAdd) with
  | Except.error e => Except.error e
  | Except.ok _ =>
    Except.ok { result := stored2.tracks.length,
                savedQueue := some (saveTrunc maxPrev stored2),
                events := events }

/-- `Queue.add` (source lines 443-473). -/
def Queue.add (cfg : WatcherCfg) (maxPrev : Nat) (stored : StoredQueue)
    (input : AddItem) (index : Option Int) : Except Unit (MutOut Nat) :=
  let validTracks := addValidTracks input
  match index with
  | some i =>
    if 0 ≤ i ∧ i < (stored.tracks.length : Int) then
      let oldStored := if cfg.tracksAdd.isSome || cfg.tracksRemoved.isSome
        then some (snapshot stored) else none
      let stored2 := { stored with tracks := (jsSplice stored.tracks i 0 validTracks).2 }
      let events := if cfg.tracksAdd.isSome
        then [{ name := "tracksAdd", oldQ := oldStored.getD stored,
                newQ := snapshot stored2 : WatchEvent }]
        else []
      match tryCatchW (watcherCall cfg.tracksAdd) with
      | Except.error e => Except.error e
      | Except.ok _ =>
        Except.ok { result := stored2.tracks.length,
                    savedQueue := some (saveTrunc maxPrev stored2),
                    events := events }
    else Queue.addAppend cfg maxPrev stored validTracks
  | none => Queue.addAppend cfg maxPrev stored validTracks

/-- Return value of `Queue.splice`: `null`, a single removed track, an array
of removed tracks, or the track count when the call was delegated to
`add`. -/
inductive SpliceRes where
  | nullRes
  | single (t : QTrack)
  | multiple (ts : List QTrack)
  | count (n : Nat)
deriving DecidableEq

/-- `Queue.splice` (source lines 482-509). The `tracksAdd` notification is
issued before the splice executes, so its new-state snapshot is taken from
the not-yet-mutated document. -/
def Queue.splice (cfg : WatcherCfg) (maxPrev : Nat) (stored : StoredQueue)
    (index amount : Int) (input : Option AddItem) : Except Unit (MutOut SpliceRes) :=
  let oldStored := if cfg.tracksAdd.isSome || cfg.tracksRemoved.isSome
    then some (snapshot stored) else none
  if stored.tracks.length == 0 then
    match input with
    | some inp =>
      match Queue.add cfg maxPrev stored inp none with
      | Except.ok out =>
        Except.ok { result := SpliceRes.count out.result,
                    savedQueue := out.savedQueue, events := out.events }
      | Except.error e => Except.error e
    | none => Except.ok { result := SpliceRes.nullRes }
  else
    let validTracks := match input with
      | some inp => addValidTracks inp
      | none => []
    let addEvents := if input.isSome && cfg.tracksAdd.isSome
      then [{ name := "tracksAdd", oldQ := oldStored.getD stored,
              newQ := snapshot stored : WatchEvent }]
      else []
    match tryCatchW (watcherCall (if input.isSome then cfg.tracksAdd else none)) with
    | Except.error e => Except.error e
    | Except.ok _ =>
      let pair := jsSplice stored.tracks index amount validTracks
      let stored2 := { stored with tracks := pair.2 }
      let remEvents := if cfg.tracksRemoved.isSome
        then [{ name := "tracksRemoved", oldQ := oldStored.getD stored,
                newQ := snapshot stored2 : WatchEvent }]
        else []
      match tryCatchW (watcherCall cfg.tracksRemoved) with
      | Except.error e => Except.error e
      | Except.ok _ =>
        let res := match pair.1 with
          | [t] => SpliceRes.single t
          | l => SpliceRes.multiple l
        Except.ok { result := res,
                    savedQueue := some (saveTrunc maxPrev stored2),
                    events := addEvents ++ remEvents }

/-- The single-track match chain of `Queue.remove` (source lines 605-612):
a chain of `||` over the six fields, each disjunct demanding a truthy query
field that is strictly equal to the candidate field. A failed disjunct -
whether the field is absent on a side or present but unequal - falls
through to the next field. -/
def matchesQuery (q v : QTrack) : Bool :=
  (jsTruthyStr q.encoded && q.encoded == v.encoded) ||
  (jsTruthyStr (q.info.bind TrackInfo.identifier) &&
    q.info.bind TrackInfo.identifier == v.info.bind TrackInfo.identifier) ||
  (jsTruthyStr (q.info.bind TrackInfo.uri) &&
    q.info.bind TrackInfo.uri == v.info.bind TrackInfo.uri) ||
  (jsTruthyStr (q.info.bind TrackInfo.title) &&
    q.info.bind TrackInfo.title == v.info.bind TrackInfo.title) ||
  (jsTruthyStr (q.info.bind TrackInfo.isrc) &&
    q.info.bind TrackInfo.isrc == v.info.bind TrackInfo.isrc) ||
  (jsTruthyStr (q.info.bind TrackInfo.artworkUrl) &&
    q.info.bind TrackInfo.artworkUrl == v.info.bind TrackInfo.artworkUrl)

/-- The six field extractors of the match chain, in source priority order. -/
def matchFields : List (QTrack → Option String) :=
  [QTrack.encoded,
   fun t => t.info.bind TrackInfo.identifier,
   fun t => t.info.bind TrackInfo.uri,
   fun t => t.info.bind TrackInfo.title,
   fun t => t.info.bind TrackInfo.isrc,
   fun t => t.info.bind TrackInfo.artworkUrl]

/-- Argument of `Queue.remove`: a numeric index, an array of indices and/or
track-like values, or a single track-like value. -/
inductive RemoveQuery where
  | idx (i : Int)
  | arr (xs : List (Int ⊕ QTrack))
  | track (t : QTrack)

/-- `l[i]` on a JS array with a possibly negative or out-of-range index. -/
def jsIndex {α : Type} (l : List α) (i : Int) : Option α :=
  if i < 0 then none else l[i.toNat]?

/-- The index-removal loop of `Queue.remove` (source lines 561-566 and
591-597): each index is looked up in the list as already modified by the
earlier removals (`if (stored.tracks[i]) removed.push(...tracks.splice(i, 1))`). -/
def removeIndicesLoop : List QTrack → List Int → List QTrack × List QTrack
  | tr, [] => ([], tr)
  | tr, i :: is =>
    match jsIndex tr i with
    | some t =>
      let rest := removeIndicesLoop (jsSplice tr i 1 []).2 is
      (t :: rest.1, rest.2)
    | none => removeIndicesLoop tr is

/-- JS truthiness of a query entry: the value returned by `Array.find` is
used as a boolean, so a found numeric entry `0` is falsy. -/
def queryEntryTruthy : Int ⊕ QTrack → Bool
  | Sum.inl n => !(n == 0)
  | Sum.inr _ => true

/-- One mixed-query entry tested against candidate `v` at index `i`
(source lines 577-586). -/
def queryEntryMatches (v : QTrack) (i : Nat) : Int ⊕ QTrack → Bool
  | Sum.inl n => n == (i : Int)
  | Sum.inr t => matchesQuery t v

/-- `tracksToRemove` of the mixed branch:
`tracks.map((v, i) => ({v, i})).filter(({v, i}) => query.find(...))`. -/
def mixedSelected (tracks : List QTrack) (xs : List (Int ⊕ QTrack)) :
    List (Nat × QTrack) :=
  tracks.enum.filter fun p =>
    match xs.find? (queryEntryMatches p.2 p.1) with
    | some q => queryEntryTruthy q
    | none => false

def isNumEntry : Int ⊕ QTrack → Bool
  | Sum.inl _ => true
  | Sum.inr _ => false

def entryToInt : Int ⊕ QTrack → Option Int
  | Sum.inl n => some n
  | Sum.inr _ => none

/-- `Queue.remove` (source lines 543-623), all four branches. -/
def Queue.remove (cfg : WatcherCfg) (maxPrev : Nat) (stored : StoredQueue)
    (query : RemoveQuery) : Except Unit (MutOut (Option (List QTrack))) :=
  let oldStored := if cfg.tracksRemoved.isSome then some (snapshot stored) else none
  match query with
  | RemoveQuery.idx i =>
    match jsIndex stored.tracks i with
    | none => Except.ok { result := none }
    | some _ =>
      let pair := jsSplice stored.tracks i 1 []
      let stored2 := { stored with tracks := pair.2 }
      let events := if cfg.tracksRemoved.isSome
        then [{ name := "tracksRemoved", oldQ := oldStored.getD stored,
                newQ := snapshot stored2 : WatchEvent }]
        else []
      match tryCatchW (watcherCall cfg.tracksRemoved) with
      | Except.error e => Except.error e
      | Except.ok _ =>
        Except.ok { result := some pair.1,
                    savedQueue := some (saveTrunc maxPrev stored2),
                    events := events }
  | RemoveQuery.arr xs =>
    if xs.all isNumEntry then
      let pair := removeIndicesLoop stored.tracks (xs.filterMap entryToInt)
      if pair.1.length == 0 then Except.ok { result := none }
      else
        let stored2 := { stored with tracks := pair.2 }
        let events := if cfg.tracksRemoved.isSome
          then [{ name := "tracksRemoved", oldQ := oldStored.getD stored,
                  newQ := snapshot stored2 : WatchEvent }]
          else []
        match tryCatchW (watcherCall cfg.tracksRemoved) with
        | Except.error e => Except.error e
        | Except.ok _ =>
          Except.ok { result := some pair.1,
                      savedQueue := some (saveTrunc maxPrev stored2),
                      events := events }
    else
      let selected := mixedSelected stored.tracks xs
      if selected.length == 0 then Except.ok { result := none }
      else
        let pair := removeIndicesLoop stored.tracks
          (selected.map fun p => (p.1 : Int))
        let stored2 := { stored with tracks := pair.2 }
        let events := if cfg.tracksRemoved.isSome
          then [{ name := "tracksRemoved", oldQ := oldStored.getD stored,
                  newQ := snapshot stored2 : WatchEvent }]
          else []
        match tryCatchW (watcherCall cfg.tracksRemoved) with
        | Except.error e => Except.error e
        | Except.ok _ =>
          Except.ok { result := some pair.1,
                      savedQueue := some (saveTrunc maxPrev stored2),
                      events := events }
  | RemoveQuery.track t =>
    match stored.tracks.findIdx? (fun v => matchesQuery t v) with
    | none => Except.ok { result := none }
    | some toRemove =>
      let pair := jsSplice stored.tracks (toRemove : Int) 1 []
      let stored2 := { stored with tracks := pair.2 }
      let events := if cfg.tracksRemoved.isSome
        then [{ name := "tracksRemoved", oldQ := oldStored.getD stored,
                newQ := snapshot stored2 : WatchEvent }]
        else []
      match tryCatchW (watcherCall cfg.tracksRemoved) with
      | Except.error e => Except.error e
      | Except.ok _ =>
        Except.ok { result := some pair.1,
                    savedQueue := some (saveTrunc maxPrev stored2),
                    events := events }

/-- `Queue.moveTrack` (source lines 318-324): returns without saving when
`from` is out of `[0, length)`; otherwise removes at `from`, reinserts at
`to` (`if (moved)`), and saves. The returned value is the document passed to
`QueueSaver.set`, `none` when no save happened. -/
def Queue.moveTrack (maxPrev : Nat) (stored : StoredQueue) (f t : Int) :
    Option StoredQueue :=
  if f < 0 ∨ (stored.tracks.length : Int) ≤ f then none
  else
    let pair := jsSplice stored.tracks f 1 []
    let tracks2 := match pair.1 with
      | [moved] => (jsSplice pair.2 t 0 [moved]).2
      | _ => pair.2
    some (saveTrunc maxPrev { stored with tracks := tracks2 })

/-- `Queue.replaceTrack` (source lines 340-346): returns `false` without
saving when the index is out of range, else overwrites, saves and returns
`true`. The second component is the document passed to `QueueSaver.set`. -/
def Queue.replaceTrack (maxPrev : Nat) (stored : StoredQueue) (index : Int)
    (track : QTrack) : Bool × Option StoredQueue :=
  if index < 0 ∨ (stored.tracks.length : Int) ≤ index then (false, none)
  else (true, some (saveTrunc maxPrev
    { stored with tracks := stored.tracks.set index.toNat track }))

/-- `Queue.swapTracks` (source lines 349-355): both indices bounds-checked;
swaps in place and saves on success. -/
def Queue.swapTracks (maxPrev : Nat) (stored : StoredQueue) (i j : Int) :
    Bool × Option StoredQueue :=
  if i < 0 ∨ (stored.tracks.length : Int) ≤ i ∨
     j < 0 ∨ (stored.tracks.length : Int) ≤ j then (false, none)
  else (true, some (saveTrunc maxPrev
    { stored with tracks := listSwap stored.tracks i.toNat j.toNat }))

/-- The fields of a freshly constructed `Queue` that the constructor
initializes. -/
structure ConstructedQueue where
  guildId : String
  current : Option QTrack
  maxPreviousTracks : Nat
  queueChanges : Option WatcherCfg
deriving DecidableEq

/-- `Queue` constructor (source lines 198-208). `queueOptions` is declared
optional but line 199 reads `queueOptions.queueChangesWatcher` without a
guard, which throws a `TypeError` when `queueOptions` is `undefined`. `data`
defaults to `{}` and `QueueSaver` is read through optional chaining. -/
def Queue.construct (guildId : String) (data : Option (Option QTrack))
    (saver : Option QueueSaverOptions) (queueOptions : Option ManagerQueueOptions) :
    Except Unit ConstructedQueue :=
  match queueOptions with
  | none => Except.error ()
  | some qo =>
    Except.ok
      { guildId := guildId,
        queueChanges := qo.queueChangesWatcher,
        maxPreviousTracks := match saver with
          | some s => s.maxPreviousTracks
          | none => 25,
        current := match data.getD none with
          | some t => if isTrack t then some t else none
          | none => none }

/-- The caller-visible outcome of a mutation: its returned value and the
saved document, disregarding watcher bookkeeping. -/
def outcomeOf {α : Type} (e : Except Unit (MutOut α)) :
    Option (α × Option StoredQueue) :=
  match e with
  | Except.ok out => some (out.result, out.savedQueue)
  | Except.error _ => none

/-- Sample tracks used for concrete evaluations. -/
def exTrackA : QTrack :=
  { kind := TrackKind.resolved, encoded := some "trackA",
    info := some { title := some "A", duration := some (JsNum.num 20000) } }

def exTrackB : QTrack :=
  { kind := TrackKind.resolved, encoded := some "trackB",
    info := some { title := some "B", duration := some (JsNum.num 30000) } }

def exTrackC : QTrack :=
  { kind := TrackKind.resolved, encoded := some "trackC",
    info := some { title := some "C", duration := some (JsNum.num 40000) } }

/-- `k` nested array levels around a single track. -/
def nestItem : Nat → QTrack → AddItem
  | 0, t => AddItem.single t
  | k + 1, t => AddItem.arr [nestItem k t]

/-! ### Basic facts about the embedded operations -/

theorem tryCatchW_ok (e : Except Unit Unit) : tryCatchW e = Except.ok () := by
  cases e <;> rfl

theorem snapshot_eq (s : StoredQueue) : snapshot s = s := by
  cases s with
  | mk c p t => cases c <;> rfl

theorem saveTrunc_tracks (maxPrev : Nat) (s : StoredQueue) :
    (saveTrunc maxPrev s).tracks = s.tracks := by
  unfold saveTrunc
  split <;> rfl

theorem saveTrunc_previous_le (n : Nat) (s : StoredQueue) :
    (saveTrunc n s).previous.length ≤ n ∨ (saveTrunc n s).previous.length = s.previous.length := by
  unfold saveTrunc
  split
  · left
    simp only [List.length_take]
    omega
  · right
    rfl

theorem itemIsTrackLike_single (t : QTrack) : itemIsTrackLike (AddItem.single t) = true := by
  cases h : t.kind <;> simp [itemIsTrackLike, isTrack, isUnresolvedTrack, h]

/-! ### C10 -/

/-- C10: constructing a `Queue` without the optional `queueOptions` argument
fails, because the constructor dereferences `queueOptions.queueChangesWatcher`
without a guard; with any `queueOptions` value supplied, construction
succeeds regardless of the other optional arguments. -/
theorem c10_constructor_requires_queueOptions :
    (∀ (g : String) (data : Option (Option QTrack)) (saver : Option QueueSaverOptions),
      Queue.construct g data saver none = Except.error ()) ∧
    (∀ (g : String) (data : Option (Option QTrack)) (saver : Option QueueSaverOptions)
      (qo : ManagerQueueOptions),
      ∃ q, Queue.construct g data saver (some qo) = Except.ok q) := by
  constructor
  · intro g data saver
    rfl
  · intro g data saver qo
    exact ⟨_, rfl⟩

/-! ### C1 -/

/-- C1: for a positive configured cap `n + 1` the length of `previous` never
exceeds the cap after a save, but the `||` default in the `QueueSaver`
constructor turns a configured cap of `0` into `25`, so a save with one
previous entry keeps it and the bound `previous.length ≤ 0` fails. -/
theorem c1_previous_cap :
    (∀ (n : Nat) (s : StoredQueue),
      (saveTrunc (QueueSaver.makeOptions
        (some { maxPreviousTracks := some (n + 1) })).maxPreviousTracks s).previous.length ≤ n + 1) ∧
    (QueueSaver.makeOptions (some { maxPreviousTracks := some 0 })).maxPreviousTracks = 25 ∧
    (saveTrunc (QueueSaver.makeOptions
        (some { maxPreviousTracks := some 0 })).maxPreviousTracks
      { previous := [exTrackA] }).previous.length = 1 := by
  refine ⟨?_, rfl, rfl⟩
  intro n s
  have h : (QueueSaver.makeOptions
      (some { maxPreviousTracks := some (n + 1) })).maxPreviousTracks = n + 1 := by
    simp [QueueSaver.makeOptions]
  rw [h]
  unfold saveTrunc
  split
  · simp only [List.length_take]
    omega
  · omega

/-! ### C9 -/

/-- C9: `moveTrack` with `from` outside `[0, length)` performs no save
(returns with no document handed to the store), and `replaceTrack` /
`swapTracks` return `false` and skip the save exactly when an index is out
of range; in-range calls save and return `true`. -/
theorem c9_bounds_silent_noops (maxPrev : Nat) (s : StoredQueue) (f t i j : Int)
    (tr : QTrack) :
    (Queue.moveTrack maxPrev s f t = none ↔ f < 0 ∨ (s.tracks.length : Int) ≤ f) ∧
    ((Queue.replaceTrack maxPrev s i tr).1 = false ↔
      i < 0 ∨ (s.tracks.length : Int) ≤ i) ∧
    ((Queue.replaceTrack maxPrev s i tr).2 = none ↔
      i < 0 ∨ (s.tracks.length : Int) ≤ i) ∧
    ((Queue.swapTracks maxPrev s i j).1 = false ↔
      i < 0 ∨ (s.tracks.length : Int) ≤ i ∨ j < 0 ∨ (s.tracks.length : Int) ≤ j) ∧
    ((Queue.swapTracks maxPrev s i j).2 = none ↔
      i < 0 ∨ (s.tracks.length : Int) ≤ i ∨ j < 0 ∨ (s.tracks.length : Int) ≤ j) := by
  unfold Queue.moveTrack Queue.replaceTrack Queue.swapTracks
  refine ⟨?_, ?_, ?_, ?_, ?_⟩ <;> (split <;> simp_all)

/-! ### C3 -/

/-- C3 counterexample: both query and candidate carry a present (truthy)
`encoded` field and the two values differ, yet the match chain still
succeeds through the later `info.identifier` field, because a failed `&&`
conjunct merely falls through to the next `||` disjunct. -/
theorem c3_counterexample :
    jsTruthyStr (QTrack.encoded
      { kind := TrackKind.resolved, encoded := some "encA",
        info := some { identifier := some "sameId" } }) = true ∧
    jsTruthyStr (QTrack.encoded
      { kind := TrackKind.resolved, encoded := some "encB",
        info := some { identifier := some "sameId" } }) = true ∧
    QTrack.encoded
      { kind := TrackKind.resolved, encoded := some "encA",
        info := some { identifier := some "sameId" } } ≠
      QTrack.encoded
      { kind := TrackKind.resolved, encoded := some "encB",
        info := some { identifier := some "sameId" } } ∧
    matchesQuery
      { kind := TrackKind.resolved, encoded := some "encA",
        info := some { identifier := some "sameId" } }
      { kind := TrackKind.resolved, encoded := some "encB",
        info := some { identifier := some "sameId" } } = true := by
  refine ⟨rfl, rfl, ?_, rfl⟩
  decide

/-- C3 amended: the match chain is a plain disjunction over the six fields
in source order; a candidate matches iff at least one field is truthy on the
query side and strictly equal on the candidate, regardless of earlier
fields being present but unequal. -/
theorem c3_match_plain_disjunction (q v : QTrack) :
    matchesQuery q v = (matchFields.any fun f => jsTruthyStr (f q) && f q == f v) ∧
    (matchesQuery q v = true ↔
      ∃ f ∈ matchFields, jsTruthyStr (f q) = true ∧ f q = f v) := by
  have h1 : matchesQuery q v = (matchFields.any fun f => jsTruthyStr (f q) && f q == f v) := by
    simp only [matchesQuery, matchFields, List.any_cons, List.any_nil, Bool.or_false,
      Bool.or_assoc]
  refine ⟨h1, ?_⟩
  rw [h1, List.any_eq_true]
  constructor
  · rintro ⟨f, hf, hp⟩
    rw [Bool.and_eq_true, beq_iff_eq] at hp
    exact ⟨f, hf, hp⟩
  · rintro ⟨f, hf, h2, h3⟩
    refine ⟨f, hf, ?_⟩
    rw [Bool.and_eq_true, beq_iff_eq]
    exact ⟨h2, h3⟩

/-! ### C4 -/

/-- C4 counterexample: a valid track sitting two array levels below the
elements of the argument array is still unwrapped and added, because `add`
flattens with `.flat(2)`, not one level. -/
theorem c4_counterexample :
    addValidTracks
      (AddItem.arr [AddItem.arr [AddItem.arr [AddItem.single exTrackA]]]) =
      [exTrackA] := rfl

/-- C4 amended: `add` flattens exactly two levels of nesting: a track nested
up to two array levels inside the argument array survives to the filtered
batch (when it passes the validity filter), while a track nested three or
more levels deep is dropped as a non-track array element. -/
theorem c4_flatten_two_levels (t : QTrack) (k : Nat) :
    addValidTracks (AddItem.arr [nestItem k t]) =
      if k ≤ 2 ∧ isValid t = true then [t] else [] := by
  match k with
  | 0 =>
    simp only [nestItem, addValidTracks, jsFlat, List.foldr, List.append_nil,
      List.filter, itemIsTrackLike_single, List.filterMap, extractTrack]
    by_cases h : isValid t = true
    · simp [h]
    · simp [h]
  | 1 =>
    simp only [nestItem, addValidTracks, jsFlat, List.foldr, List.append_nil,
      List.filter, itemIsTrackLike_single, List.filterMap, extractTrack]
    by_cases h : isValid t = true
    · simp [h]
    · simp [h]
  | 2 =>
    simp only [nestItem, addValidTracks, jsFlat, List.foldr, List.append_nil,
      List.filter, itemIsTrackLike_single, List.filterMap, extractTrack]
    by_cases h : isValid t = true
    · simp [h]
    · simp [h]
  | k + 3 =>
    have hk : ¬ (k + 3 ≤ 2 ∧ isValid t = true) := by
      rintro ⟨h1, _⟩
      omega
    simp only [nestItem, addValidTracks, jsFlat, List.foldr, List.append_nil,
      List.filter, itemIsTrackLike, List.filterMap]
    simp [hk]

/-! ### Permutation facts about the in-place swaps and removals -/

theorem cons_set_multiset {α : Type} (l : List α) (i : Nat) (h : i < l.length) (b : α) :
    (l[i] ::ₘ ((l.set i b : List α) : Multiset α)) = b ::ₘ (l : Multiset α) := by
  induction l generalizing i with
  | nil => exact absurd h (Nat.not_lt_zero i)
  | cons x xs ih =>
    cases i with
    | zero =>
      show x ::ₘ ((b :: xs : List α) : Multiset α) = b ::ₘ ((x :: xs : List α) : Multiset α)
      rw [← Multiset.cons_coe, ← Multiset.cons_coe]
      exact Multiset.cons_swap x b (xs : Multiset α)
    | succ j =>
      have hj : j < xs.length := Nat.lt_of_succ_lt_succ h
      show xs[j] ::ₘ ((x :: xs.set j b : List α) : Multiset α) =
        b ::ₘ ((x :: xs : List α) : Multiset α)
      rw [← Multiset.cons_coe, ← Multiset.cons_coe, Multiset.cons_swap, ih j hj,
        Multiset.cons_swap]

theorem listSwap_perm {α : Type} (l : List α) (i j : Nat) : (listSwap l i j).Perm l := by
  unfold listSwap
  split
  · rename_i a b hi hj
    obtain ⟨hi2, ha⟩ := List.getElem?_eq_some_iff.mp hi
    obtain ⟨hj2, hb⟩ := List.getElem?_eq_some_iff.mp hj
    rw [← Multiset.coe_eq_coe]
    have hj3 : j < (l.set i b).length := by
      rw [List.length_set]
      exact hj2
    have e1 := cons_set_multiset (l.set i b) j hj3 a
    have hb2 : (l.set i b)[j] = b := by
      rw [List.getElem_set]
      split
      · rfl
      · exact hb
    rw [hb2] at e1
    have e2 := cons_set_multiset l i hi2 b
    rw [ha] at e2
    exact (Multiset.cons_inj_right b).mp (e1.trans e2)
  · exact List.Perm.refl l

theorem fyLoop_perm (l : List QTrack) (n : Nat) (js : List Nat) :
    (fyLoop l n js).Perm l := by
  induction n generalizing l js with
  | zero => exact List.Perm.refl l
  | succ i ih =>
    cases js with
    | nil => exact List.Perm.refl l
    | cons j rest =>
      show (fyLoop (listSwap l (i + 1) j) i rest).Perm l
      exact (ih (listSwap l (i + 1) j) rest).trans (listSwap_perm l (i + 1) j)

theorem jsIndex_some {α : Type} {l : List α} {i : Int} {t : α}
    (h : jsIndex l i = some t) :
    0 ≤ i ∧ ∃ hn : i.toNat < l.length, l[i.toNat] = t := by
  unfold jsIndex at h
  split at h
  · exact absurd h (by simp)
  · rename_i hneg
    exact ⟨Int.not_lt.mp hneg, List.getElem?_eq_some_iff.mp h⟩

theorem jsSplice_one {α : Type} {l : List α} {i : Int} {t : α}
    (h : jsIndex l i = some t) :
    jsSplice l i 1 [] = ([t], l.take i.toNat ++ l.drop (i.toNat + 1)) := by
  obtain ⟨hpos, hn, ht⟩ := jsIndex_some h
  unfold jsSplice jsSpliceStart
  have hstart : ¬ (i < 0) := Int.not_lt.mpr hpos
  simp only [if_neg hstart]
  have hs : min i.toNat l.length = i.toNat := Nat.min_eq_left (Nat.le_of_lt hn)
  have hdc : min (max (1 : Int) 0).toNat (l.length - i.toNat) = 1 := by
    have : (1 : Nat) ≤ l.length - i.toNat := by omega
    simp only [Int.toNat_one.symm]
    omega
  rw [hs, hdc]
  have h1 : List.take 1 (List.drop i.toNat l) = [t] := by
    rw [List.drop_eq_getElem_cons hn, ht]
    rfl
  rw [h1]
  simp

theorem getElem_cons_eraseIdx_perm {α : Type} (l : List α) (n : Nat)
    (h : n < l.length) :
    (l[n] :: (l.take n ++ l.drop (n + 1))).Perm l := by
  conv_rhs => rw [← List.take_append_drop n l, List.drop_eq_getElem_cons h]
  exact List.perm_middle.symm

theorem removeIndicesLoop_perm (idxs : List Int) (tr : List QTrack) :
    ((removeIndicesLoop tr idxs).1 ++ (removeIndicesLoop tr idxs).2).Perm tr := by
  induction idxs generalizing tr with
  | nil => exact List.Perm.refl tr
  | cons i is ih =>
    rcases h : jsIndex tr i with _ | t
    · show ((removeIndicesLoop tr (i :: is)).1 ++ (removeIndicesLoop tr (i :: is)).2).Perm tr
      unfold removeIndicesLoop
      rw [h]
      exact ih tr
    · obtain ⟨hpos, hn, ht⟩ := jsIndex_some h
      unfold removeIndicesLoop
      rw [h]
      have hrw := jsSplice_one h
      show ((t :: (removeIndicesLoop (jsSplice tr i 1 []).2 is).1) ++
        (removeIndicesLoop (jsSplice tr i 1 []).2 is).2).Perm tr
      rw [List.cons_append]
      refine (List.Perm.cons t (ih (jsSplice tr i 1 []).2)).trans ?_
      rw [hrw]
      rw [← ht]
      exact getElem_cons_eraseIdx_perm tr i.toNat hn

/-! ### C6 -/

/-- C6: whenever `shuffle` returns normally, a track list of length at most
1 is reported back with no save; exactly two tracks are deterministically
swapped; and with three or more tracks, for every sequence of random draws
the saved list is a permutation of the original and the original length is
returned. -/
theorem c6_shuffle (cfg : WatcherCfg) (maxPrev : Nat) (stored : StoredQueue)
    (js : List Nat) (out : MutOut Nat)
    (h : Queue.shuffle cfg maxPrev stored js = Except.ok out) :
    (stored.tracks.length ≤ 1 →
      out.result = stored.tracks.length ∧ out.savedQueue = none) ∧
    (∀ a b, stored.tracks = [a, b] →
      out.result = 2 ∧ ∃ sq, out.savedQueue = some sq ∧ sq.tracks = [b, a]) ∧
    (3 ≤ stored.tracks.length →
      out.result = stored.tracks.length ∧
      ∃ sq, out.savedQueue = some sq ∧ sq.tracks.Perm stored.tracks) := by
  unfold Queue.shuffle at h
  by_cases hle : stored.tracks.length ≤ 1
  · rw [if_pos hle] at h
    have hout : out = { result := stored.tracks.length } := by
      cases h
      rfl
    subst hout
    refine ⟨fun _ => ⟨rfl, rfl⟩, ?_, ?_⟩
    · intro a b hab
      rw [hab] at hle
      simp at hle
    · intro h3
      omega
  · rw [if_neg hle] at h
    rcases hw : watcherCall cfg.shuffled with e | u
    · rw [hw] at h
      cases h
    · rw [hw] at h
      injection h with h
      subst h
      refine ⟨fun hc => absurd hc hle, ?_, ?_⟩
      · intro a b hab
        have h2 : (stored.tracks.length == 2) = true := by
          rw [hab]
          rfl
        simp only [h2, if_true, hab]
        refine ⟨rfl, _, rfl, ?_⟩
        rw [saveTrunc_tracks]
        rfl
      · intro h3
        have h2 : (stored.tracks.length == 2) = false := by
          simp only [beq_eq_false_iff_ne, ne_eq]
          omega
        simp only [h2, Bool.false_eq_true, if_false]
        refine ⟨?_, _, rfl, ?_⟩
        · exact (fyLoop_perm stored.tracks (stored.tracks.length - 1) js).length_eq
        · rw [saveTrunc_tracks]
          exact fyLoop_perm stored.tracks (stored.tracks.length - 1) js

/-- Concrete instantiation of the shuffle theorem on a two-track queue. -/
theorem c6_shuffle_witness :
    ∃ out, Queue.shuffle noWatcher 25 { tracks := [exTrackA, exTrackB] } [] =
      Except.ok out ∧ out.result = 2 ∧
      ∃ sq, out.savedQueue = some sq ∧ sq.tracks = [exTrackB, exTrackA] := by
  refine ⟨_, rfl, ?_⟩
  exact (c6_shuffle noWatcher 25 { tracks := [exTrackA, exTrackB] } [] _ rfl).2.1
    exTrackA exTrackB rfl

/-! ### C8 -/

/-- C8 counterexample: removing indices `[0, 1]` from `[A, B, C]` yields
`[A, C]`, not the elements `[A, B]` that occupied positions 0 and 1 in the
pre-call list: after index 0 is spliced out the list shifts, so index 1 then
denotes the original third element. -/
theorem c8_counterexample :
    Queue.remove noWatcher 25 { tracks := [exTrackA, exTrackB, exTrackC] }
      (RemoveQuery.arr [Sum.inl 0, Sum.inl 1]) =
      Except.ok { result := some [exTrackA, exTrackC],
                  savedQueue := some { tracks := [exTrackB] },
                  events := [] } ∧
    [exTrackA, exTrackC] ≠ [exTrackA, exTrackB] := by
  refine ⟨rfl, ?_⟩
  decide

/-- C8 amended: with an all-numeric index array, `remove` processes the
indices sequentially against the progressively shrinking list: each index
present in the current list removes the element now at that position; the
removed elements plus the remaining list are a permutation of the original
list, the collected removals are returned, and `null` is returned (with no
save) exactly when no index was present at its turn. -/
theorem c8_sequential_indices (cfg : WatcherCfg) (maxPrev : Nat)
    (stored : StoredQueue) (idxs : List Int) :
    ((removeIndicesLoop stored.tracks idxs).1 ++
      (removeIndicesLoop stored.tracks idxs).2).Perm stored.tracks ∧
    ((removeIndicesLoop stored.tracks idxs).1 = [] →
      Queue.remove cfg maxPrev stored (RemoveQuery.arr (idxs.map Sum.inl)) =
        Except.ok { result := none }) ∧
    ((removeIndicesLoop stored.tracks idxs).1 ≠ [] →
      ∃ ev, Queue.remove cfg maxPrev stored (RemoveQuery.arr (idxs.map Sum.inl)) =
        Except.ok { result := some (removeIndicesLoop stored.tracks idxs).1,
                    savedQueue := some (saveTrunc maxPrev
                      { stored with tracks := (removeIndicesLoop stored.tracks idxs).2 }),
                    events := ev }) := by
  have hall : ((idxs.map Sum.inl).all isNumEntry) = true := by
    simp only [List.all_eq_true, List.mem_map]
    rintro x ⟨i, _, rfl⟩
    rfl
  have hfm : (idxs.map (Sum.inl : Int → Int ⊕ QTrack)).filterMap entryToInt = idxs := by
    rw [List.filterMap_map]
    have : (entryToInt ∘ (Sum.inl : Int → Int ⊕ QTrack)) = some := by
      funext i
      rfl
    rw [this, List.filterMap_some]
  refine ⟨removeIndicesLoop_perm idxs stored.tracks, ?_, ?_⟩
  · intro hemp
    unfold Queue.remove
    simp only [hall, if_true, hfm, hemp]
    rfl
  · intro hne
    unfold Queue.remove
    simp only [hall, if_true, hfm]
    have hlen : ((removeIndicesLoop stored.tracks idxs).1.length == 0) = false := by
      simp only [beq_eq_false_iff_ne, ne_eq, List.length_eq_zero]
      exact hne
    simp only [hlen, Bool.false_eq_true, if_false, tryCatchW_ok]
    exact ⟨_, rfl⟩

/-- Concrete instantiation of the sequential-index theorem. -/
theorem c8_sequential_indices_witness :
    ∃ ev, Queue.remove noWatcher 25 { tracks := [exTrackA, exTrackB, exTrackC] }
      (RemoveQuery.arr ([0, 1].map Sum.inl)) =
      Except.ok { result := some [exTrackA, exTrackC],
                  savedQueue := some { tracks := [exTrackB] }, events := ev } := by
  have h := (c8_sequential_indices noWatcher 25
    { tracks := [exTrackA, exTrackB, exTrackC] } [0, 1]).2.2 (by decide)
  exact h

/-! ### C5 -/

theorem isUnresolved_not_isTrack {t : QTrack} (h : isUnresolvedTrack t = true) :
    isTrack t = false := by
  unfold isUnresolvedTrack at h
  unfold isTrack
  cases hk : t.kind
  · rw [hk] at h
    exact absurd h (by decide)
  · rfl

/-- `isValid` on a resolved track demands a numeric duration of at least
10000 ms. -/
theorem isValid_resolved_iff (t : QTrack) (h : isTrack t = true) :
    isValid t = true ↔
      ∃ n : Int, trackDuration t = some (JsNum.num n) ∧ 10000 ≤ n := by
  unfold isValid
  rw [h]
  simp only [if_true]
  rcases hd : trackDuration t with _ | d
  · simp [jsTruthyNum]
  · cases d with
    | nan => simp [jsTruthyNum]
    | num n =>
      simp only [jsTruthyNum, jsIsNaN, jsLtNum, Bool.or_false, Bool.not_not]
      constructor
      · intro hval
        refine ⟨n, rfl, ?_⟩
        by_cases h0 : (n == 0) = true
        · rw [h0] at hval
          simp at hval
        · by_cases hlt : n < 10000
          · rw [Bool.not_eq_true] at h0
            simp [h0, hlt] at hval
          · omega
      · rintro ⟨m, hm, hge⟩
        have hmn : m = n := by
          injection hm with hm
          injection hm with hm
          exact hm.symm
        subst hmn
        have h0 : (m == 0) = false := by
          simp only [beq_eq_false_iff_ne, ne_eq]
          omega
        have hlt : decide (m < 10000) = false := by
          simp only [decide_eq_false_iff_not]
          omega
        rw [h0, hlt]
        rfl

/-- C5: `add` never lets a resolved track with a missing, `NaN` or
`< 10000` ms duration into the filtered batch, and an unresolved track in
the flattened input is never dropped by the duration check. -/
theorem c5_duration_filter (input : AddItem) :
    (∀ t ∈ addValidTracks input, isTrack t = true →
      ∃ n : Int, trackDuration t = some (JsNum.num n) ∧ 10000 ≤ n) ∧
    (∀ t : QTrack, isUnresolvedTrack t = true →
      AddItem.single t ∈ jsFlat 2 (match input with
        | AddItem.arr xs => xs
        | AddItem.single u => [AddItem.single u]) →
      t ∈ addValidTracks input) := by
  constructor
  · intro t ht htrack
    have hval : isValid t = true := (List.mem_filter.mp ht).2
    exact (isValid_resolved_iff t htrack).mp hval
  · intro t hu hmem
    unfold addValidTracks
    apply List.mem_filter.mpr
    constructor
    · apply List.mem_filterMap.mpr
      refine ⟨AddItem.single t, ?_, rfl⟩
      apply List.mem_filter.mpr
      exact ⟨hmem, itemIsTrackLike_single t⟩
    · unfold isValid
      rw [isUnresolved_not_isTrack hu]
      rfl

/-- Concrete instantiation of the duration-filter theorem: a long resolved
track passes with its duration, and a vacant unresolved track survives the
filter. -/
theorem c5_duration_filter_witness :
    (∃ n : Int, trackDuration exTrackA = some (JsNum.num n) ∧ 10000 ≤ n) ∧
    ({ kind := TrackKind.unresolved : QTrack } ∈
      addValidTracks (AddItem.arr
        [AddItem.single { kind := TrackKind.unresolved },
         AddItem.single exTrackA])) := by
  constructor
  · refine (c5_duration_filter (AddItem.single exTrackA)).1 exTrackA ?_ rfl
    decide
  · refine (c5_duration_filter (AddItem.arr
      [AddItem.single { kind := TrackKind.unresolved },
       AddItem.single exTrackA])).2 { kind := TrackKind.unresolved } rfl ?_
    exact List.Mem.head _

/-! ### C2 -/

/-- C2 counterexample: the `shuffled` watcher call in `shuffle` is not
wrapped in `try`/`catch`; with a registered throwing handler the exception
propagates and the shuffled order is never saved, while a non-throwing
handler lets the same call save normally. -/
theorem c2_counterexample :
    Queue.shuffle { shuffled := some true } 25 { tracks := [exTrackA, exTrackB] } [] =
      Except.error () ∧
    Queue.shuffle { shuffled := some false } 25 { tracks := [exTrackA, exTrackB] } [] =
      Except.ok { result := 2,
                  savedQueue := some { tracks := [exTrackB, exTrackA] },
                  events := [{ name := "shuffled",
                               oldQ := { tracks := [exTrackA, exTrackB] },
                               newQ := { tracks := [exTrackB, exTrackA] } }] } := by
  exact ⟨rfl, rfl⟩

/-- C2 amended: for `add`, `splice` and `remove` every watcher call is
wrapped in `try`/`catch`, so for every watcher configuration - including
throwing handlers - the operation returns normally, its returned value and
saved document are exactly those of a run with no watcher registered, and
whenever a watcher callback was invoked the mutated document was still
handed to the store; `shuffle` alone lacks the guard (see the
counterexample). -/
theorem c2_watcher_exceptions_absorbed (cfg : WatcherCfg) (maxPrev : Nat)
    (stored : StoredQueue) (input : AddItem) (index : Option Int) (si sa : Int)
    (sInput : Option AddItem) (query : RemoveQuery) :
    outcomeOf (Queue.add cfg maxPrev stored input index) =
      outcomeOf (Queue.add noWatcher maxPrev stored input index) ∧
    (Queue.add cfg maxPrev stored input index).toOption.isSome = true ∧
    outcomeOf (Queue.splice cfg maxPrev stored si sa sInput) =
      outcomeOf (Queue.splice noWatcher maxPrev stored si sa sInput) ∧
    (Queue.splice cfg maxPrev stored si sa sInput).toOption.isSome = true ∧
    outcomeOf (Queue.remove cfg maxPrev stored query) =
      outcomeOf (Queue.remove noWatcher maxPrev stored query) ∧
    (Queue.remove cfg maxPrev stored query).toOption.isSome = true ∧
    (∀ out, Queue.add cfg maxPrev stored input index = Except.ok out →
      ∃ sq, out.savedQueue = some sq) ∧
    (∀ out, Queue.splice cfg maxPrev stored si sa sInput = Except.ok out →
      out.events ≠ [] → ∃ sq, out.savedQueue = some sq) ∧
    (∀ out, Queue.remove cfg maxPrev stored query = Except.ok out →
      out.events ≠ [] → ∃ sq, out.savedQueue = some sq) := by
  have haddShape : ∀ (c : WatcherCfg) (inp : AddItem) (idx : Option Int),
      ∃ r sq ev, Queue.add c maxPrev stored inp idx =
        Except.ok { result := r, savedQueue := some sq, events := ev } := by
    intro c inp idx
    unfold Queue.add Queue.addAppend
    simp only [tryCatchW_ok]
    cases idx with
    | none => exact ⟨_, _, _, rfl⟩
    | some i =>
      by_cases h : 0 ≤ i ∧ i < (stored.tracks.length : Int)
      · simp only [if_pos h]
        exact ⟨_, _, _, rfl⟩
      · simp only [if_neg h]
        exact ⟨_, _, _, rfl⟩
  have hadd : ∀ (c : WatcherCfg) (inp : AddItem) (idx : Option Int),
      outcomeOf (Queue.add c maxPrev stored inp idx) =
        outcomeOf (Queue.add noWatcher maxPrev stored inp idx) ∧
      (Queue.add c maxPrev stored inp idx).toOption.isSome = true := by
    intro c inp idx
    unfold Queue.add Queue.addAppend
    simp only [tryCatchW_ok]
    cases idx with
    | none => exact ⟨by trivial, by trivial⟩
    | some i =>
      by_cases h : 0 ≤ i ∧ i < (stored.tracks.length : Int)
      · simp only [if_pos h]
        exact ⟨by trivial, by trivial⟩
      · simp only [if_neg h]
        exact ⟨by trivial, by trivial⟩
  have hsplice :
      outcomeOf (Queue.splice cfg maxPrev stored si sa sInput) =
        outcomeOf (Queue.splice noWatcher maxPrev stored si sa sInput) ∧
      (Queue.splice cfg maxPrev stored si sa sInput).toOption.isSome = true := by
    unfold Queue.splice
    simp only [tryCatchW_ok]
    by_cases h0 : (stored.tracks.length == 0) = true
    · simp only [h0, if_true]
      cases sInput with
      | none => exact ⟨by trivial, by trivial⟩
      | some inp =>
        obtain ⟨ho, hs⟩ := hadd cfg inp none
        rcases ha : Queue.add cfg maxPrev stored inp none with e | o1
        · rw [ha] at hs
          exact absurd hs (by simp [Except.toOption])
        · rcases hb : Queue.add noWatcher maxPrev stored inp none with e2 | o2
          · rw [ha, hb] at ho
            exact absurd ho (by simp [outcomeOf])
          · rw [ha, hb] at ho
            simp only [outcomeOf, Option.some.injEq, Prod.mk.injEq] at ho
            simp only [ha, hb]
            constructor
            · simp only [outcomeOf, Option.some.injEq, Prod.mk.injEq]
              exact ⟨congrArg SpliceRes.count ho.1, ho.2⟩
            · rfl
    · simp only [h0, Bool.false_eq_true, if_false]
      exact ⟨by trivial, by trivial⟩
  have hremove :
      outcomeOf (Queue.remove cfg maxPrev stored query) =
        outcomeOf (Queue.remove noWatcher maxPrev stored query) ∧
      (Queue.remove cfg maxPrev stored query).toOption.isSome = true := by
    unfold Queue.remove
    simp only [tryCatchW_ok]
    cases query with
    | idx i =>
      rcases h : jsIndex stored.tracks i with _ | t
      · simp only [h]
        exact ⟨by trivial, by trivial⟩
      · simp only [h]
        exact ⟨by trivial, by trivial⟩
    | arr xs =>
      by_cases hb : (xs.all isNumEntry) = true
      · simp only [hb, if_true]
        by_cases hl : ((removeIndicesLoop stored.tracks (xs.filterMap entryToInt)).1.length == 0) = true
        · simp only [hl, if_true]
          exact ⟨by trivial, by trivial⟩
        · simp only [hl, Bool.false_eq_true, if_false]
          exact ⟨by trivial, by trivial⟩
      · simp only [hb, Bool.false_eq_true, if_false]
        by_cases hl : ((mixedSelected stored.tracks xs).length == 0) = true
        · simp only [hl, if_true]
          exact ⟨by trivial, by trivial⟩
        · simp only [hl, Bool.false_eq_true, if_false]
          exact ⟨by trivial, by trivial⟩
    | track t =>
      rcases h : stored.tracks.findIdx? (fun v => matchesQuery t v) with _ | n
      · simp only [h]
        exact ⟨by trivial, by trivial⟩
      · simp only [h]
        exact ⟨by trivial, by trivial⟩
  have haddPersist : ∀ out, Queue.add cfg maxPrev stored input index = Except.ok out →
      ∃ sq, out.savedQueue = some sq := by
    intro out h
    obtain ⟨r, sq, ev, ha⟩ := haddShape cfg input index
    rw [ha] at h
    injection h with h
    subst h
    exact ⟨sq, rfl⟩
  have hsplPersist : ∀ out, Queue.splice cfg maxPrev stored si sa sInput = Except.ok out →
      out.events ≠ [] → ∃ sq, out.savedQueue = some sq := by
    intro out h hne
    unfold Queue.splice at h
    simp only [tryCatchW_ok] at h
    by_cases h0 : (stored.tracks.length == 0) = true
    · simp only [h0, if_true] at h
      cases sInput with
      | none =>
        injection h with h
        subst h
        exact absurd rfl hne
      | some inp =>
        obtain ⟨r, sq, ev, ha⟩ := haddShape cfg inp none
        simp only [ha] at h
        injection h with h
        subst h
        exact ⟨sq, rfl⟩
    · simp only [h0, Bool.false_eq_true, if_false] at h
      injection h with h
      subst h
      exact ⟨_, rfl⟩
  have hremPersist : ∀ out, Queue.remove cfg maxPrev stored query = Except.ok out →
      out.events ≠ [] → ∃ sq, out.savedQueue = some sq := by
    intro out h hne
    unfold Queue.remove at h
    simp only [tryCatchW_ok] at h
    cases query with
    | idx i =>
      rcases hq : jsIndex stored.tracks i with _ | t
      · simp only [hq] at h
        injection h with h
        subst h
        exact absurd rfl hne
      · simp only [hq] at h
        injection h with h
        subst h
        exact ⟨_, rfl⟩
    | arr xs =>
      by_cases hb : (xs.all isNumEntry) = true
      · simp only [hb, if_true] at h
        by_cases hl : ((removeIndicesLoop stored.tracks
            (xs.filterMap entryToInt)).1.length == 0) = true
        · simp only [hl, if_true] at h
          injection h with h
          subst h
          exact absurd rfl hne
        · simp only [hl, Bool.false_eq_true, if_false] at h
          injection h with h
          subst h
          exact ⟨_, rfl⟩
      · simp only [hb, Bool.false_eq_true, if_false] at h
        by_cases hl : ((mixedSelected stored.tracks xs).length == 0) = true
        · simp only [hl, if_true] at h
          injection h with h
          subst h
          exact absurd rfl hne
        · simp only [hl, Bool.false_eq_true, if_false] at h
          injection h with h
          subst h
          exact ⟨_, rfl⟩
    | track t =>
      rcases hq : stored.tracks.findIdx? (fun v => matchesQuery t v) with _ | n
      · simp only [hq] at h
        injection h with h
        subst h
        exact absurd rfl hne
      · simp only [hq] at h
        injection h with h
        subst h
        exact ⟨_, rfl⟩
  obtain ⟨ha1, ha2⟩ := hadd cfg input index
  exact ⟨ha1, ha2, hsplice.1, hsplice.2, hremove.1, hremove.2,
    haddPersist, hsplPersist, hremPersist⟩

/-! ### C7 -/

/-- C7 counterexample: in `splice` the `tracksAdd` watcher is invoked before
the splice executes, so the `newStoredQueue` argument it receives is a
snapshot of the pre-mutation state (`[A, B]`), not of the mutated state
that is subsequently saved (`[C, B]`). -/
theorem c7_counterexample :
    Queue.splice { tracksAdd := some false, tracksRemoved := some false } 25
      { tracks := [exTrackA, exTrackB] } 0 1 (some (AddItem.single exTrackC)) =
      Except.ok { result := SpliceRes.single exTrackA,
                  savedQueue := some { tracks := [exTrackC, exTrackB] },
                  events := [{ name := "tracksAdd",
                               oldQ := { tracks := [exTrackA, exTrackB] },
                               newQ := { tracks := [exTrackA, exTrackB] } },
                             { name := "tracksRemoved",
                               oldQ := { tracks := [exTrackA, exTrackB] },
                               newQ := { tracks := [exTrackC, exTrackB] } }] } ∧
    ([exTrackA, exTrackB] : List QTrack) ≠ [exTrackC, exTrackB] := by
  refine ⟨rfl, ?_⟩
  decide

/-- C7 amended: for `shuffle`, `add` and `remove` every watcher invocation
receives the pre-mutation state as `oldStoredQueue` and a snapshot whose
track list equals the saved (post-mutation) track list as `newStoredQueue`;
in `splice` on a non-empty list this holds for the `tracksRemoved`
notification, but the `tracksAdd` notification's `newStoredQueue` is a
pre-mutation snapshot. (Snapshots are modelled by value; object aliasing is
outside the embedding.) -/
theorem c7_snapshot_arguments (cfg : WatcherCfg) (maxPrev : Nat)
    (stored : StoredQueue) (js : List Nat) (input : AddItem) (index : Option Int)
    (si sa : Int) (sInput : Option AddItem) (query : RemoveQuery) :
    (∀ out, Queue.shuffle cfg maxPrev stored js = Except.ok out →
      ∀ e ∈ out.events, e.oldQ = stored ∧
        ∀ sq, out.savedQueue = some sq → e.newQ.tracks = sq.tracks) ∧
    (∀ out, Queue.add cfg maxPrev stored input index = Except.ok out →
      ∀ e ∈ out.events, e.oldQ = stored ∧
        ∀ sq, out.savedQueue = some sq → e.newQ.tracks = sq.tracks) ∧
    (∀ out, Queue.remove cfg maxPrev stored query = Except.ok out →
      ∀ e ∈ out.events, e.oldQ = stored ∧
        ∀ sq, out.savedQueue = some sq → e.newQ.tracks = sq.tracks) ∧
    (∀ out, stored.tracks ≠ [] →
      Queue.splice cfg maxPrev stored si sa sInput = Except.ok out →
      ∀ e ∈ out.events, e.oldQ = stored ∧
        ∀ sq, out.savedQueue = some sq →
          (e.name = "tracksRemoved" → e.newQ.tracks = sq.tracks) ∧
          (e.name = "tracksAdd" → e.newQ.tracks = stored.tracks)) := by
  refine ⟨?_, ?_, ?_, ?_⟩
  · intro out h e he
    unfold Queue.shuffle at h
    by_cases hle : stored.tracks.length ≤ 1
    · rw [if_pos hle] at h
      injection h with h
      subst h
      exact absurd he (List.not_mem_nil e)
    · rw [if_neg hle] at h
      rcases hw : watcherCall cfg.shuffled with er | u
      · rw [hw] at h
        cases h
      · rw [hw] at h
        injection h with h
        subst h
        by_cases hs : cfg.shuffled.isSome = true
        · simp only [hs, if_true, List.mem_singleton] at he
          subst he
          refine ⟨by simp [hs, snapshot_eq], ?_⟩
          intro sq hsq
          injection hsq with hsq
          subst hsq
          rw [saveTrunc_tracks]
          simp [snapshot_eq]
        · simp only [hs, Bool.false_eq_true, if_false] at he
          exact absurd he (List.not_mem_nil e)
  · intro out h e he
    unfold Queue.add Queue.addAppend at h
    simp only [tryCatchW_ok] at h
    have appendCase : ∀ (hh : (Except.ok
        { result := (stored.tracks ++ addValidTracks input).length,
          savedQueue := some (saveTrunc maxPrev
            { stored with tracks := stored.tracks ++ addValidTracks input }),
          events := if cfg.tracksAdd.isSome
            then [{ name := "tracksAdd",
                    oldQ := (if cfg.tracksAdd.isSome then some (snapshot stored)
                      else none).getD stored,
                    newQ := snapshot { stored with
                      tracks := stored.tracks ++ addValidTracks input } : WatchEvent }]
            else [] } : Except Unit (MutOut Nat)) = Except.ok out),
        e ∈ out.events → e.oldQ = stored ∧
          ∀ sq, out.savedQueue = some sq → e.newQ.tracks = sq.tracks := by
      intro hh he2
      injection hh with hh
      subst hh
      by_cases hs : cfg.tracksAdd.isSome = true
      · simp only [hs, if_true, List.mem_singleton] at he2
        subst he2
        refine ⟨by simp [hs, snapshot_eq], ?_⟩
        intro sq hsq
        injection hsq with hsq
        subst hsq
        rw [saveTrunc_tracks]
        simp [snapshot_eq]
      · simp only [hs, Bool.false_eq_true, if_false] at he2
        exact absurd he2 (List.not_mem_nil e)
    cases index with
    | none => exact appendCase h he
    | some i =>
      by_cases hib : 0 ≤ i ∧ i < (stored.tracks.length : Int)
      · simp only [if_pos hib] at h
        injection h with h
        subst h
        by_cases hs : cfg.tracksAdd.isSome = true
        · simp only [hs, if_true, List.mem_singleton] at he
          subst he
          refine ⟨by simp [hs, snapshot_eq], ?_⟩
          intro sq hsq
          injection hsq with hsq
          subst hsq
          rw [saveTrunc_tracks]
          simp [snapshot_eq]
        · simp only [hs, Bool.false_eq_true, if_false] at he
          exact absurd he (List.not_mem_nil e)
      · simp only [if_neg hib] at h
        exact appendCase h he
  · intro out h e he
    unfold Queue.remove at h
    simp only [tryCatchW_ok] at h
    cases query with
    | idx i =>
      rcases hq : jsIndex stored.tracks i with _ | t
      · simp only [hq] at h
        injection h with h
        subst h
        exact absurd he (List.not_mem_nil e)
      · simp only [hq] at h
        injection h with h
        subst h
        by_cases hs : cfg.tracksRemoved.isSome = true
        · simp only [hs, if_true, List.mem_singleton] at he
          subst he
          refine ⟨by simp [hs, snapshot_eq], ?_⟩
          intro sq hsq
          injection hsq with hsq
          subst hsq
          rw [saveTrunc_tracks]
          simp [snapshot_eq]
        · simp only [hs, Bool.false_eq_true, if_false] at he
          exact absurd he (List.not_mem_nil e)
    | arr xs =>
      by_cases hb : (xs.all isNumEntry) = true
      · simp only [hb, if_true] at h
        by_cases hl : ((removeIndicesLoop stored.tracks
            (xs.filterMap entryToInt)).1.length == 0) = true
        · simp only [hl, if_true] at h
          injection h with h
          subst h
          exact absurd he (List.not_mem_nil e)
        · simp only [hl, Bool.false_eq_true, if_false] at h
          injection h with h
          subst h
          by_cases hs : cfg.tracksRemoved.isSome = true
          · simp only [hs, if_true, List.mem_singleton] at he
            subst he
            refine ⟨by simp [hs, snapshot_eq], ?_⟩
            intro sq hsq
            injection hsq with hsq
            subst hsq
            rw [saveTrunc_tracks]
            simp [snapshot_eq]
          · simp only [hs, Bool.false_eq_true, if_false] at he
            exact absurd he (List.not_mem_nil e)
      · simp only [hb, Bool.false_eq_true, if_false] at h
        by_cases hl : ((mixedSelected stored.tracks xs).length == 0) = true
        · simp only [hl, if_true] at h
          injection h with h
          subst h
          exact absurd he (List.not_mem_nil e)
        · simp only [hl, Bool.false_eq_true, if_false] at h
          injection h with h
          subst h
          by_cases hs : cfg.tracksRemoved.isSome = true
          · simp only [hs, if_true, List.mem_singleton] at he
            subst he
            refine ⟨by simp [hs, snapshot_eq], ?_⟩
            intro sq hsq
            injection hsq with hsq
            subst hsq
            rw [saveTrunc_tracks]
            simp [snapshot_eq]
          · simp only [hs, Bool.false_eq_true, if_false] at he
            exact absurd he (List.not_mem_nil e)
    | track t =>
      rcases hq : stored.tracks.findIdx? (fun v => matchesQuery t v) with _ | n
      · simp only [hq] at h
        injection h with h
        subst h
        exact absurd he (List.not_mem_nil e)
      · simp only [hq] at h
        injection h with h
        subst h
        by_cases hs : cfg.tracksRemoved.isSome = true
        · simp only [hs, if_true, List.mem_singleton] at he
          subst he
          refine ⟨by simp [hs, snapshot_eq], ?_⟩
          intro sq hsq
          injection hsq with hsq
          subst hsq
          rw [saveTrunc_tracks]
          simp [snapshot_eq]
        · simp only [hs, Bool.false_eq_true, if_false] at he
          exact absurd he (List.not_mem_nil e)
  · intro out hne h e he
    unfold Queue.splice at h
    have h0 : (stored.tracks.length == 0) = false := by
      simp only [beq_eq_false_iff_ne, ne_eq, List.length_eq_zero]
      exact hne
    simp only [h0, Bool.false_eq_true, if_false, tryCatchW_ok] at h
    injection h with h
    subst h
    rw [List.mem_append] at he
    rcases he with he | he
    · by_cases hs : (sInput.isSome && cfg.tracksAdd.isSome) = true
      · simp only [hs, if_true, List.mem_singleton] at he
        subst he
        have hsA : cfg.tracksAdd.isSome = true := by
          simp only [Bool.and_eq_true] at hs
          exact hs.2
        refine ⟨by simp [hsA, snapshot_eq], ?_⟩
        intro sq hsq
        refine ⟨?_, ?_⟩
        · intro hname
          have hlit : ("tracksAdd" : String) = "tracksRemoved" := hname
          exact absurd hlit (by decide)
        · intro _
          simp [snapshot_eq]
      · simp only [hs, Bool.false_eq_true, if_false] at he
        exact absurd he (List.not_mem_nil e)
    · by_cases hs : cfg.tracksRemoved.isSome = true
      · simp only [hs, if_true, List.mem_singleton] at he
        subst he
        refine ⟨by simp [hs, snapshot_eq], ?_⟩
        intro sq hsq
        injection hsq with hsq
        subst hsq
        refine ⟨?_, ?_⟩
        · intro _
          rw [saveTrunc_tracks]
          simp [snapshot_eq]
        · intro hname
          have hlit : ("tracksRemoved" : String) = "tracksAdd" := hname
          exact absurd hlit (by decide)
      · simp only [hs, Bool.false_eq_true, if_false] at he
        exact absurd he (List.not_mem_nil e)

/-- Concrete instantiation of the snapshot theorem on a non-empty splice. -/
theorem c7_snapshot_arguments_witness :
    ∃ out, Queue.splice { tracksAdd := some false, tracksRemoved := some false } 25
      { tracks := [exTrackA, exTrackB] } 0 1 (some (AddItem.single exTrackC)) =
      Except.ok out ∧
    ∀ e ∈ out.events, e.oldQ = { tracks := [exTrackA, exTrackB] } ∧
      ∀ sq, out.savedQueue = some sq →
        (e.name = "tracksRemoved" → e.newQ.tracks = sq.tracks) ∧
        (e.name = "tracksAdd" → e.newQ.tracks = [exTrackA, exTrackB]) := by
  refine ⟨_, rfl, ?_⟩
  exact (c7_snapshot_arguments { tracksAdd := some false, tracksRemoved := some false }
    25 { tracks := [exTrackA, exTrackB] } [] (AddItem.single exTrackC) none 0 1
    (some (AddItem.single exTrackC)) (RemoveQuery.idx 0)).2.2.2 _ (by decide) rfl

end LavalinkQueue
